import Mathlib

/-!
Shallow embedding of `src/typescript/time/timer.ts` (module `@itorepo/libs/time`).

The file defines two components:

* `BaseParameterValidator` — the fluent value-validation chain ("ValueChain").
  Its state is the stored parameter `_currentParam` and the verdict field
  `_currentAnswer`.  The class declares a getter `current` for the parameter,
  a setter-only accessor `answer` for the verdict, a getter `break`
  (`this.answer === false`) and the predicate methods `isSet`, `isNotNull`,
  `isBoolean`, `isTrue`, `isFalse`, plus `valueOf` (`return this.answer`).
  Because `answer` has a setter but no getter, a JavaScript read of
  `this.answer` evaluates to `undefined`; this semantics is embedded
  explicitly in `answerRead` below.

* `TimeEntry` — the timer with fields `_started`, `_stopped`, `_marker`,
  derived state getters `ready` / `running` / `stopped` and operations
  `constructor`, `start`, `stop`, `reset`, `elapsed`.  Calls to `Date.now()`
  are modelled by an explicit `now : Int` argument; `throw` is modelled by
  `Except`.
-/

/-- JavaScript runtime values, as far as this module manipulates them. -/
inductive JSValue where
  | undef
  | null
  | bool (b : Bool)
  | num (n : Int)
  | str (s : String)
  deriving DecidableEq

/-- JavaScript strict equality (`===`).  Every `===` in the source compares
the stored parameter against one of the literals `undefined`, `null`,
`true`, `false` (or compares the `answer` read, which is `undefined`, with
`false`), and on such comparisons strict equality coincides with structural
equality of the tagged values. -/
def strictEq (a b : JSValue) : Bool := a == b

/-- State of a `BaseParameterValidator` instance: the two private fields. -/
structure BaseParameterValidator where
  _currentParam : JSValue
  _currentAnswer : Bool
  deriving DecidableEq

namespace BaseParameterValidator

/-- The constructor: `this._currentParam = param; this._currentAnswer = true;`. -/
def construct (param : JSValue) : BaseParameterValidator :=
  { _currentParam := param, _currentAnswer := true }

/-- The private getter `current`: `return this._currentParam;`. -/
def current (v : BaseParameterValidator) : JSValue := v._currentParam

/-- A JavaScript read of the property `answer`.  The class declares only
`set answer(result: boolean)` and no getter, so reading `this.answer`
yields `undefined` (it does not read `_currentAnswer`). -/
def answerRead (_ : BaseParameterValidator) : JSValue := JSValue.undef

/-- The setter `answer`: `this._currentAnswer = result;`. -/
def answerSet (v : BaseParameterValidator) (result : Bool) : BaseParameterValidator :=
  { v with _currentAnswer := result }

/-- The getter named `break` in the source (`break` is a reserved word in
Lean, hence the name `breakProp`): `return this.answer === false;`.  The
`answer` read yields `undefined`, so this compares `undefined === false`. -/
def breakProp (v : BaseParameterValidator) : Bool :=
  strictEq (answerRead v) (JSValue.bool false)

/-- `isSet()`: `if (!this.break) { this.answer = (this.current !== undefined); } return this;`. -/
def isSet (v : BaseParameterValidator) : BaseParameterValidator :=
  if !(breakProp v) then answerSet v (!(strictEq (current v) JSValue.undef)) else v

/-- `isNotNull()`: `if (!this.break) { this.answer = (this.current !== null); } return this;`. -/
def isNotNull (v : BaseParameterValidator) : BaseParameterValidator :=
  if !(breakProp v) then answerSet v (!(strictEq (current v) JSValue.null)) else v

/-- `isBoolean()`: `if (!this.break) { this.answer = (this.current === true || this.current === false); } return this;`. -/
def isBoolean (v : BaseParameterValidator) : BaseParameterValidator :=
  if !(breakProp v) then
    answerSet v (strictEq (current v) (JSValue.bool true) || strictEq (current v) (JSValue.bool false))
  else v

/-- `isTrue()`: `if (!this.break) { this.answer = (this.current === true); } return this;`. -/
def isTrue (v : BaseParameterValidator) : BaseParameterValidator :=
  if !(breakProp v) then answerSet v (strictEq (current v) (JSValue.bool true)) else v

/-- `isFalse()`: `if (!this.break) { this.answer = (this.current === false); } return this;`. -/
def isFalse (v : BaseParameterValidator) : BaseParameterValidator :=
  if !(breakProp v) then answerSet v (strictEq (current v) (JSValue.bool false)) else v

/-- `valueOf()`: `return this.answer;` — again a read of the setter-only
accessor, hence `undefined`, not the stored `_currentAnswer`. -/
def valueOf (v : BaseParameterValidator) : JSValue := answerRead v

end BaseParameterValidator

/-- The five public predicate methods of the chain, as call tokens. -/
inductive PredCall where
  | isSet
  | isNotNull
  | isBoolean
  | isTrue
  | isFalse
  deriving DecidableEq

/-- Dispatch one predicate method call on a validator instance. -/
def applyPred (v : BaseParameterValidator) : PredCall → BaseParameterValidator
  | .isSet => v.isSet
  | .isNotNull => v.isNotNull
  | .isBoolean => v.isBoolean
  | .isTrue => v.isTrue
  | .isFalse => v.isFalse

/-- Run a sequence of predicate method calls left to right on a validator
instance (each method returns `this`, so the calls chain). -/
def runChain (v : BaseParameterValidator) : List PredCall → BaseParameterValidator
  | [] => v
  | p :: ps => runChain (applyPred v p) ps

/-- One predicate method call in the `Except` monad of JavaScript
exceptions.  Each method body consists of a property read on `this`
(reading a setter-only accessor yields `undefined`, it does not raise),
strict equalities, boolean connectives, an assignment through the `answer`
setter and `return this` — none of which can throw — so every call returns
normally with the updated instance. -/
def applyPredE (v : BaseParameterValidator) (p : PredCall) :
    Except String BaseParameterValidator :=
  Except.ok (applyPred v p)

/-- Run a sequence of predicate calls in the `Except` monad. -/
def runChainE (v : BaseParameterValidator) :
    List PredCall → Except String BaseParameterValidator
  | [] => Except.ok v
  | p :: ps => do
      let v2 ← applyPredE v p
      runChainE v2 ps

/-- The independent result of one predicate on a value: the verdict after
applying that single predicate to a freshly constructed chain on the value. -/
def indepPred (x : JSValue) (p : PredCall) : Bool :=
  (applyPred (BaseParameterValidator.construct x) p)._currentAnswer

/-- The logical AND of the independent results of a list of predicates on a
value. -/
def indepAnd (x : JSValue) (ps : List PredCall) : Bool :=
  ps.foldl (fun acc p => acc && indepPred x p) true

/-- JavaScript `ToBoolean` applied to an object reference: an object is
always truthy.  The `TimeEntry` constructor uses the validator object
returned by `isTrue()` directly as the condition of `?:`. -/
def objectTruthy (_ : BaseParameterValidator) : Bool := true

/-- State of a `TimeEntry` instance: the three private fields.  `_marker`
is `string | null`, modelled with `Option`. -/
structure TimeEntry where
  _started : Int
  _stopped : Int
  _marker : Option String
  deriving DecidableEq

namespace TimeEntry

/-- Getter `ready`: `(this._started == 0) && (this._stopped == this._started)`. -/
def ready (e : TimeEntry) : Bool :=
  (e._started == 0) && (e._stopped == e._started)

/-- Getter `running`: `(this._started > 0) && (this._stopped == 0)`. -/
def running (e : TimeEntry) : Bool :=
  decide (e._started > 0) && (e._stopped == 0)

/-- Getter `stopped`: `(this._started > 0) && (this._stopped >= this._started)`. -/
def stopped (e : TimeEntry) : Bool :=
  decide (e._started > 0) && decide (e._stopped ≥ e._started)

/-- The constructor:
`let strt = new BParamVal(start); this._marker = marker || null;
this._started = strt.isBoolean().isTrue() ? Date.now() : this._started;`.
The condition of the ternary is the validator object returned by
`isTrue()` (not its verdict), and `ToBoolean` of an object is always
`true`.  `marker || null` maps the empty string (falsy) to `null`.
`now` stands for the value of `Date.now()`; the fields start at 0. -/
def construct (marker : String) (start : JSValue) (now : Int) : TimeEntry :=
  let strt := BaseParameterValidator.construct start
  { _marker := if marker = "" then none else some marker,
    _started := if objectTruthy strt.isBoolean.isTrue then now else 0,
    _stopped := 0 }

/-- `start(marker)`: `this._marker = marker || this._marker;
this._started = Date.now(); return this._started;`. -/
def start (e : TimeEntry) (marker : String) (now : Int) : TimeEntry × Int :=
  let e2 : TimeEntry :=
    { e with
      _marker := if marker = "" then e._marker else some marker,
      _started := now }
  (e2, e2._started)

/-- `stop()`: `this._stopped = (this.running) ? Date.now() : this._stopped;
return this._stopped;`. -/
def stop (e : TimeEntry) (now : Int) : TimeEntry × Int :=
  let e2 : TimeEntry := { e with _stopped := if e.running then now else e._stopped }
  (e2, e2._stopped)

/-- `reset()`: `this._started = 0; this._stopped = 0; this._marker = null;`. -/
def reset (_e : TimeEntry) : TimeEntry :=
  { _started := 0, _stopped := 0, _marker := none }

/-- `elapsed()`: the body is an unconditional
`throw new Error("Method not implemented.")` (marked TODO in the source). -/
def elapsed (_e : TimeEntry) : Except String Int :=
  Except.error "Method not implemented."

end TimeEntry

/-- The mutating operations on an existing `TimeEntry`. -/
inductive TOp where
  | startOp (marker : String)
  | stopOp
  | resetOp
  deriving DecidableEq

/-- Whether an operation is a `start` call. -/
def isStartOp : TOp → Bool
  | .startOp _ => true
  | .stopOp => false
  | .resetOp => false

/-- Apply one timed operation to an entry, discarding the return value.
`t` is the value `Date.now()` would report during the call. -/
def applyOp (e : TimeEntry) : TOp → Int → TimeEntry
  | .startOp m, t => (e.start m t).1
  | .stopOp, t => (e.stop t).1
  | .resetOp, _ => e.reset

/-- Run a sequence of timed operations on an entry. -/
def runOps (e : TimeEntry) : List (TOp × Int) → TimeEntry
  | [] => e
  | (op, t) :: rest => runOps (applyOp e op t) rest

/-- The timestamp-order invariant of the spec: whenever `stoppedAt` is
nonzero, `stoppedAt >= startedAt`. -/
def invB (e : TimeEntry) : Bool :=
  (e._stopped == 0) || decide (e._started ≤ e._stopped)

/-- A well-clocked trace from a given entry: each call sees a clock reading
no earlier than the entry's current `startedAt`, and `start` is only called
while `stoppedAt = 0` (no restart over a stale stop timestamp). -/
def okTrace (e : TimeEntry) : List (TOp × Int) → Bool
  | [] => true
  | (op, t) :: rest =>
      decide (e._started ≤ t) && (!(isStartOp op) || (e._stopped == 0)) &&
        okTrace (applyOp e op t) rest

/-! Theorems settling the claims. -/

/-- C1: evaluating the constructor at the failing input
`new TimeEntry("x", false)` with `Date.now() = 5`.  The ternary condition is
the (always truthy) validator object, so the entry starts anyway:
`startedAt = 5` and the entry is not `Ready`, contrary to the claim that a
strict-false flag leaves a fresh entry `Ready`. -/
theorem construct_false_flag_still_starts :
    (TimeEntry.construct "x" (JSValue.bool false) 5)._started = 5 ∧
    (TimeEntry.construct "x" (JSValue.bool false) 5).ready = false := by
  decide

/-- C2: evaluating the chain at the failing input: stored value `true`,
calls `isFalse()` then `isTrue()`.  The final stored verdict is `true`,
although the logical AND of the two predicates' independent results is
`false`: `break` compares the unreadable `answer` accessor (`undefined`)
with `false` and thus never short-circuits, so the last call overwrites the
verdict instead of preserving `false`. -/
theorem chain_verdict_not_logical_and :
    (runChain (BaseParameterValidator.construct (JSValue.bool true))
      [PredCall.isFalse, PredCall.isTrue])._currentAnswer = true ∧
    indepAnd (JSValue.bool true) [PredCall.isFalse, PredCall.isTrue] = false := by
  decide

/-- C4: evaluating the chain at the failing input: stored value `true`,
the verdict after `isFalse()` is `false`, yet after the subsequent
`isTrue()` it is `true` again — the stored verdict is not monotonic
non-increasing, because `break` never reads the real verdict. -/
theorem chain_verdict_not_monotonic :
    (runChain (BaseParameterValidator.construct (JSValue.bool true))
      [PredCall.isFalse])._currentAnswer = false ∧
    (runChain (BaseParameterValidator.construct (JSValue.bool true))
      [PredCall.isFalse, PredCall.isTrue])._currentAnswer = true := by
  decide

/-- C5: evaluating `elapsed()` at the failing input: an entry that is
`Stopped` with `startedAt = 1000`, `stoppedAt = 1500`.  The claim says
`elapsed()` succeeds there with `1500 - 1000 = 500`; the code throws
`Error("Method not implemented.")` unconditionally (explicit TODO). -/
theorem elapsed_throws_even_when_stopped :
    ({ _started := 1000, _stopped := 1500, _marker := some "x" } : TimeEntry).stopped = true ∧
    ({ _started := 1000, _stopped := 1500, _marker := some "x" } : TimeEntry).elapsed =
      Except.error "Method not implemented." :=
  ⟨by decide, rfl⟩

/-- C6: `stop()` case analysis.  While `Running` it records the clock
reading into `stoppedAt` and returns it; while not `Running` it changes no
field and returns the previous `stoppedAt`; on a `Ready` entry `stoppedAt`
stays 0 and the entry stays `Ready`; while `Stopped`, two consecutive
`stop()` calls leave `stoppedAt` unchanged. -/
theorem stop_state_cases (e : TimeEntry) (t1 t2 : Int) :
    (e.running = true → e.stop t1 = ({ e with _stopped := t1 }, t1)) ∧
    (e.running = false → e.stop t1 = (e, e._stopped)) ∧
    (e.ready = true → (e.stop t1).1._stopped = 0 ∧ (e.stop t1).1.ready = true) ∧
    (e.stopped = true → ((e.stop t1).1.stop t2).1._stopped = e._stopped) := by
  obtain ⟨a, b, m⟩ := e
  refine ⟨fun h => ?_, fun h => ?_, fun h => ?_, fun h => ?_⟩
  · simp [TimeEntry.stop, h]
  · simp [TimeEntry.stop, h]
  · have h0 : a = 0 ∧ b = a := by
      simpa [TimeEntry.ready, Bool.and_eq_true, beq_iff_eq] using h
    have hr : TimeEntry.running ⟨a, b, m⟩ = false := by
      simp [TimeEntry.running, h0.1]
    simp [TimeEntry.stop, hr]
    exact ⟨h0.2.trans h0.1, h⟩
  · have h0 : 0 < a ∧ a ≤ b := by
      simpa [TimeEntry.stopped, Bool.and_eq_true, decide_eq_true_eq] using h
    have hr : TimeEntry.running ⟨a, b, m⟩ = false := by
      have hb : (b == (0 : Int)) = false := by
        simp only [beq_eq_false_iff_ne, ne_eq]
        omega
      simp [TimeEntry.running, hb]
    simp [TimeEntry.stop, hr]

/-- C6 witness: a `Running` entry (5, 0) stopped at 9 becomes (5, 9) and
returns 9; a `Ready` entry is unchanged and returns 0; a `Stopped` entry
(3, 7) keeps `stoppedAt = 7` through two further `stop()` calls. -/
theorem stop_state_cases_witness :
    (({ _started := 5, _stopped := 0, _marker := none } : TimeEntry).stop 9 =
      ({ _started := 5, _stopped := 9, _marker := none }, 9)) ∧
    (({ _started := 0, _stopped := 0, _marker := none } : TimeEntry).stop 9 =
      ({ _started := 0, _stopped := 0, _marker := none }, 0)) ∧
    ((({ _started := 3, _stopped := 7, _marker := none } : TimeEntry).stop 9).1.stop 11).1._stopped
      = 7 :=
  ⟨(stop_state_cases { _started := 5, _stopped := 0, _marker := none } 9 0).1 (by decide),
   (stop_state_cases { _started := 0, _stopped := 0, _marker := none } 9 0).2.1 (by decide),
   (stop_state_cases { _started := 3, _stopped := 7, _marker := none } 9 11).2.2.2 (by decide)⟩

/-- C7: for every pair of integer timestamps (and any marker), the derived
state getters `ready`, `running`, `stopped` are pairwise mutually
exclusive: no two of them are true at once. -/
theorem derived_states_mutually_exclusive (e : TimeEntry) :
    (e.ready && e.running) = false ∧ (e.ready && e.stopped) = false ∧
    (e.running && e.stopped) = false := by
  obtain ⟨a, b, m⟩ := e
  simp only [TimeEntry.ready, TimeEntry.running, TimeEntry.stopped]
  refine ⟨?_, ?_, ?_⟩ <;>
    simp only [Bool.and_eq_false_iff, Bool.and_eq_true, beq_iff_eq, decide_eq_true_eq,
      Bool.and_eq_false_imp, beq_eq_false_iff_ne, ne_eq, decide_eq_false_iff_not, not_lt,
      not_le] <;>
    omega

/-- C8: no predicate method of the chain ever throws: for every stored
value of any type and every sequence of predicate calls, running the chain
in the exception monad returns normally with exactly the state the pure
chain computes. -/
theorem chain_predicates_never_throw (v : BaseParameterValidator) (ops : List PredCall) :
    runChainE v ops = Except.ok (runChain v ops) := by
  induction ops generalizing v with
  | nil => rfl
  | cons p ps ih => simpa [runChainE, runChain, applyPredE] using ih (applyPred v p)

/-- C9: for every marker, every start argument whatsoever and every clock
value, the constructor records `startedAt = now`, because the ternary
condition is the validator object itself (truthy); with a positive clock
the fresh entry is therefore never `Ready`. -/
theorem construct_always_starts (marker : String) (flag : JSValue) (now : Int) :
    (TimeEntry.construct marker flag now)._started = now ∧
    (0 < now → (TimeEntry.construct marker flag now).ready = false) := by
  constructor
  · rfl
  · intro h
    simp only [TimeEntry.construct, TimeEntry.ready, objectTruthy, if_true,
      Bool.and_eq_false_iff, beq_eq_false_iff_ne, ne_eq]
    left
    omega

/-- C9 witness: constructing with marker "x", argument `null` and clock 7
records `startedAt = 7` and the entry is not `Ready`. -/
theorem construct_always_starts_witness :
    (TimeEntry.construct "x" JSValue.null 7)._started = 7 ∧
    (TimeEntry.construct "x" JSValue.null 7).ready = false :=
  ⟨(construct_always_starts "x" JSValue.null 7).1,
   (construct_always_starts "x" JSValue.null 7).2 (by decide)⟩

/-- C10: for every constructed chain and every sequence of predicate calls,
`valueOf()` returns the `undefined` value — the read of the setter-only
`answer` accessor — and never the stored boolean verdict `_currentAnswer`. -/
theorem valueOf_never_returns_verdict (x : JSValue) (ops : List PredCall) :
    (runChain (BaseParameterValidator.construct x) ops).valueOf = JSValue.undef ∧
    ((runChain (BaseParameterValidator.construct x) ops).valueOf ==
      JSValue.bool (runChain (BaseParameterValidator.construct x) ops)._currentAnswer) = false :=
  ⟨rfl, rfl⟩

/-- One well-clocked step preserves the timestamp-order invariant: the clock
reading is no earlier than the current `startedAt`, and a `start` call only
happens while `stoppedAt = 0`. -/
theorem invB_applyOp (e : TimeEntry) (op : TOp) (t : Int)
    (hinv : invB e = true) (ht : e._started ≤ t)
    (hstart : isStartOp op = true → e._stopped = 0) :
    invB (applyOp e op t) = true := by
  obtain ⟨a, b, m⟩ := e
  cases op with
  | startOp mk =>
      have hb : b = 0 := hstart rfl
      simp [applyOp, TimeEntry.start, invB, hb]
  | stopOp =>
      by_cases hr : TimeEntry.running ⟨a, b, m⟩ = true
      · simp only [applyOp, TimeEntry.stop, hr, if_true, invB, Bool.or_eq_true,
          beq_iff_eq, decide_eq_true_eq]
        right
        exact ht
      · rw [Bool.not_eq_true] at hr
        simpa [applyOp, TimeEntry.stop, hr] using hinv
  | resetOp =>
      simp [applyOp, TimeEntry.reset, invB]

/-- A well-clocked trace preserves the timestamp-order invariant. -/
theorem invB_runOps (ops : List (TOp × Int)) (e : TimeEntry)
    (hinv : invB e = true) (hok : okTrace e ops = true) :
    invB (runOps e ops) = true := by
  induction ops generalizing e with
  | nil => simpa [runOps] using hinv
  | cons p rest ih =>
      obtain ⟨op, t⟩ := p
      simp only [okTrace, Bool.and_eq_true, decide_eq_true_eq] at hok
      refine ih (applyOp e op t) (invB_applyOp e op t hinv hok.1.1 ?_) hok.2
      intro hs
      have hb := hok.1.2
      rw [hs] at hb
      simpa [beq_iff_eq] using hb

/-- C3 (amended): for every freshly constructed entry and every trace of
`start` / `stop` / `reset` calls in which each clock reading is no earlier
than the current `startedAt` and `start` is never invoked while `stoppedAt`
is nonzero, every reachable state satisfies the invariant: whenever
`stoppedAt` is nonzero, `stoppedAt >= startedAt`. -/
theorem construct_trace_preserves_inv (marker : String) (flag : JSValue) (now : Int)
    (ops : List (TOp × Int))
    (hok : okTrace (TimeEntry.construct marker flag now) ops = true) :
    invB (runOps (TimeEntry.construct marker flag now) ops) = true :=
  invB_runOps ops _ (by simp [TimeEntry.construct, invB]) hok

/-- C3 witness: the trace construct at 1, stop at 2, reset at 3, start at 4,
stop at 6 is well-clocked and ends in a state satisfying the invariant. -/
theorem construct_trace_preserves_inv_witness :
    okTrace (TimeEntry.construct "x" (JSValue.bool true) 1)
      [(TOp.stopOp, 2), (TOp.resetOp, 3), (TOp.startOp "y", 4), (TOp.stopOp, 6)] = true ∧
    invB (runOps (TimeEntry.construct "x" (JSValue.bool true) 1)
      [(TOp.stopOp, 2), (TOp.resetOp, 3), (TOp.startOp "y", 4), (TOp.stopOp, 6)]) = true :=
  ⟨by decide, construct_trace_preserves_inv "x" (JSValue.bool true) 1 _ (by decide)⟩

/-- C3 counterexample: the claim as stated fails.  With strictly increasing
clock readings, construct at 1 (the entry starts immediately), `stop()` at
2, then `start()` at 3 reaches the state `startedAt = 3`, `stoppedAt = 2`:
`stoppedAt` is nonzero yet smaller than `startedAt`, because `start()` does
not clear the stale stop timestamp. -/
theorem stale_stop_violates_inv :
    invB (runOps (TimeEntry.construct "x" (JSValue.bool true) 1)
      [(TOp.stopOp, 2), (TOp.startOp "", 3)]) = false := by
  decide
